import Mathlib

/-!
Verification of the fossfund persistence layer.

Shallow embedding of `src/fossfund/database`: the live Record model
(`database/model/record.py` and its subclasses in `model/project.py`,
`model/organisation.py`, `model/logo.py`), the superseded Record model
(`database/model.py`, shadowed at import time by the `model/` package but
still present in the repository), and the table-level helpers of
`database/__init__.py`.

Python `None` is modelled by `Value.unset`, the NULL singleton marker by
`Value.null`.  Database effects are modelled by the operation a method
issues (`DbOp`); the store-assigned primary key returned by an insert is a
parameter of `Record.save`.
-/

/-- A Python value held in a record field or a data dictionary.
`unset` models Python `None` (field not queried / value absent);
`null` models the NULL singleton of `model/record.py`. -/
inductive Value where
  | unset
  | null
  | int (n : Int)
  | str (s : String)
  | bool (b : Bool)
deriving DecidableEq, Repr

/-- Python truthiness of a `Value`.  The NULL singleton defines no
`__bool__`, so it is truthy. -/
def pyTruthy : Value → Bool
  | .unset => false
  | .null => true
  | .int n => n != 0
  | .str s => s != ""
  | .bool b => b

/-- Column type, as declared in `database/schema.py` (`Integer`, `String`,
`Boolean`; the `Time`/`Enum` columns of the user tables are not needed by
any claim). -/
inductive ColTy where
  | integer
  | string
  | boolean
deriving DecidableEq, Repr

/-- Models `typ.python_type(val)` in `Record.__init__`: the Python
constructors `int`, `str`, `bool` applied to a value.  `none` models the
exception Python would raise (`int` of NULL or of a non-numeric string). -/
def pythonType : ColTy → Value → Option Value
  | .integer, .int n => some (.int n)
  | .integer, .bool b => some (.int (if b then 1 else 0))
  | .integer, .str s => (s.toInt?).map Value.int
  | .integer, _ => none
  | .string, .str s => some (.str s)
  | .string, .int n => some (.str (toString n))
  | .string, .bool b => some (.str (if b then "True" else "False"))
  | .string, .null => some (.str "NULL")
  | .string, .unset => some (.str "None")
  | .boolean, v => some (.bool (pyTruthy v))

/-- A column of a table: name, declared type, and primary-key flag. -/
structure Col where
  name : String
  ty : ColTy
  primaryKey : Bool
deriving DecidableEq, Repr

/-- A table: its list of columns, in declaration order. -/
structure Table where
  cols : List Col
deriving DecidableEq, Repr

/-- The `projects` table of `database/schema.py`. -/
def projects : Table :=
  ⟨[⟨"projID", .integer, true⟩,
    ⟨"orgID", .integer, false⟩,
    ⟨"name", .string, false⟩,
    ⟨"desc", .string, false⟩,
    ⟨"homepage", .string, false⟩,
    ⟨"logo", .boolean, false⟩]⟩

/-- The `organisations` table of `database/schema.py`. -/
def organisations : Table :=
  ⟨[⟨"orgID", .integer, true⟩,
    ⟨"name", .string, false⟩,
    ⟨"desc", .string, false⟩,
    ⟨"logo", .boolean, false⟩]⟩

/-- Association-list update: models `setattr(self, c, v)` on the field
store.  Replaces the first binding of `c`, or appends one. -/
def setAssoc (c : String) (v : Value) : List (String × Value) → List (String × Value)
  | [] => [(c, v)]
  | (k, w) :: rest => if k = c then (c, v) :: rest else (k, w) :: setAssoc c v rest

/-- Models `getattr(self, c, None)`: the value of field `c`, `unset` when
the attribute was never assigned. -/
def lookupField (fs : List (String × Value)) (c : String) : Value :=
  (List.lookup c fs).getD .unset

/-- A database operation issued by the persistence layer. -/
inductive DbOp where
  | insert (values : List (String × Value))
  | update (key : Value) (values : List (String × Value))
  | delete (key : Value)
deriving DecidableEq, Repr

/-- The exception types of `model/record.py` (also declared in the
superseded `model.py`). -/
inductive RecErr where
  | invalidRecord
  | invalidState
  | notUnique
  | operationPending
deriving DecidableEq, Repr

/-- The live `Record` of `database/model/record.py`: committed flag plus
the dynamically assigned field attributes. -/
structure Record where
  committed : Bool
  fields : List (String × Value)
deriving DecidableEq, Repr

/-- Field read on a live record, `getattr(self, c, None)`. -/
def Record.getField (r : Record) (c : String) : Value :=
  lookupField r.fields c

/-- Field write on a live record, `setattr(self, c, v)`. -/
def Record.setField (r : Record) (c : String) (v : Value) : Record :=
  { r with fields := setAssoc c v r.fields }

/-- The `_data` property of `model/record.py` (lines 203-215): a mapping
from every column name to `getattr(self, col, None)`, with the primary-key
entry deleted.  (Python would raise `KeyError` when the configured primary
key is not a column of the table; every entity declares its primary key as
a column, so the filter below is equivalent on all reachable inputs.) -/
def recordData (t : Table) (pkey : String) (r : Record) : List (String × Value) :=
  ((t.cols.map Col.name).filter (fun c => c != pkey)).map
    (fun c => (c, r.getField c))

/-- The field-rewriting loop of `Record._saveCallback`
(`model/record.py` lines 248-253): every column whose attribute is `None`
is set to the NULL singleton. -/
def nullFill : List Col → Record → Record
  | [], r => r
  | col :: cs, r =>
      nullFill cs
        (if r.getField col.name = .unset then r.setField col.name .null else r)

/-- `Record._saveCallback` of `model/record.py` (lines 248-254): NULL-fill
all unset columns, then set `committed = True`. -/
def saveCallbackBase (t : Table) (r : Record) : Record :=
  { nullFill t.cols r with committed := true }

/-- `Record.save` of `database/model/record.py` (lines 230-246).
`pkey` is the class attribute `_primaryKey` (`none` models the unset class
default); `newID` is the store-assigned key returned by `_add` for the
insert branch.  Returns the resulting record state and the single store
operation issued.  Note the method has no in-flight-operation guard: the
only error it can raise is `InvalidRecordError`. -/
def Record.save (pkey : Option String) (t : Table) (r : Record) (newID : Int) :
    Except RecErr (Record × DbOp) :=
  match pkey with
  | none => .error .invalidRecord
  | some pk =>
      if r.committed then
        .ok (saveCallbackBase t r, .update (r.getField pk) (recordData t pk r))
      else
        let vals := recordData t pk r
        let r1 := r.setField pk (.int newID)
        .ok (saveCallbackBase t r1, .insert vals)

/-- `Record.deleteID` of `model/record.py` (lines 161-173): a classmethod
issuing a DELETE for the given key value, with no committed check and no
field reset. -/
def Record.deleteID (value : Value) : DbOp :=
  DbOp.delete value

/-- The column loop of `Record.__init__` (`model/record.py` lines
189-194): for each table column present in `data`, assign
`typ.python_type(val) if val else val`.  `none` models the exception
Python raises when the coercion fails. -/
def initFields : List Col → List (String × Value) → Record → Option Record
  | [], _, r => some r
  | c :: cs, d, r =>
      match List.lookup c.name d with
      | none => initFields cs d r
      | some val =>
          if pyTruthy val then
            match pythonType c.ty val with
            | none => none
            | some v => initFields cs d (r.setField c.name v)
          else
            initFields cs d (r.setField c.name val)

/-- `Record.__init__` of `model/record.py` (lines 175-194): start with
every field unset, store the committed flag, then assign the fields of
`data` that are columns of the table.  An empty or absent `data` is falsy
and skips the loop. -/
def initRecord (t : Table) (data : Option (List (String × Value))) (committed : Bool) :
    Option Record :=
  match data with
  | none => some { committed := committed, fields := [] }
  | some d =>
      if d = [] then some { committed := committed, fields := [] }
      else initFields t.cols d { committed := committed, fields := [] }

/-- The superseded `Record` of `database/model.py` (shadowed at import
time by the `model/` package): committed flag, dirty flag, the
`_dirtyFields` set (modelled as a list of names), whether `_future` is
set (an operation is in flight), and the field attributes. -/
structure LRecord where
  committed : Bool
  dirty : Bool
  dirtyFields : List String
  future : Bool
  fields : List (String × Value)
deriving DecidableEq, Repr

/-- `_getData()` of `model.py` (lines 126-138) with `onlyDirty=False`:
every column's value, the primary key included. -/
def legacyData (t : Table) (r : LRecord) : List (String × Value) :=
  t.cols.map (fun c => (c.name, lookupField r.fields c.name))

/-- `_getData(True)` of `model.py`: the values of the dirty fields. -/
def legacyDirtyData (r : LRecord) : List (String × Value) :=
  r.dirtyFields.map (fun c => (c, lookupField r.fields c))

/-- `Record.save` of the superseded `model.py` (lines 154-178): raises
`InvalidRecordError` when `_primaryKey` is unconfigured,
`OperationPendingError` when `_future` is set, `InvalidStateError` when
the record is already committed; otherwise launches the INSERT and marks
an operation in flight. -/
def LRecord.save (pkey : Option String) (t : Table) (r : LRecord) :
    Except RecErr (LRecord × DbOp) :=
  match pkey with
  | none => .error .invalidRecord
  | some _ =>
      if r.future then .error .operationPending
      else if r.committed then .error .invalidState
      else .ok ({ r with future := true }, .insert (legacyData t r))

/-- `Record.update` of the superseded `model.py` (lines 189-212): same
guards, plus `InvalidStateError` when not committed; a clean record is a
no-op issuing no store operation; otherwise launches an UPDATE with only
the dirty fields. -/
def LRecord.update (pkey : Option String) (r : LRecord) :
    Except RecErr (LRecord × Option DbOp) :=
  match pkey with
  | none => .error .invalidRecord
  | some pk =>
      if r.future then .error .operationPending
      else if !r.committed then .error .invalidState
      else if !r.dirty then .ok (r, none)
      else .ok ({ r with future := true },
        some (.update (lookupField r.fields pk) (legacyDirtyData r)))

/-- `Record._updateCallback` of `model.py` (lines 214-219): clear dirty
tracking and release the in-flight marker. -/
def LRecord.updateCallback (r : LRecord) : LRecord :=
  { r with dirtyFields := [], dirty := false, future := false }

/-- `Record.delete` of the superseded `model.py` (lines 221-236): raises
`InvalidStateError` unless committed; otherwise launches a DELETE for the
record's own primary-key value and sets `self._future`.  The result is
exactly the state `delete()` leaves behind: `_deleteCallback` is
registered with `add_done_callback` on that fresh `asyncio.Future`,
which nothing in the repository ever resolves (the DELETE runs in a
separate `ensure_future` task), so the callback never runs and the
fields keep their values. -/
def LRecord.delete (pkey : String) (r : LRecord) :
    Except RecErr (LRecord × DbOp) :=
  if !r.committed then .error .invalidState
  else .ok ({ r with future := true }, .delete (lookupField r.fields pkey))

/-- The column loop of `Record._deleteCallback` (`model.py` lines
238-242): set every column attribute back to `None`. -/
def unsetAll : List Col → List (String × Value) → List (String × Value)
  | [], fs => fs
  | c :: cs, fs => unsetAll cs (setAssoc c.name .unset fs)

/-- `Record._deleteCallback` of `model.py` (lines 238-243): reset every
field to unset and release the in-flight marker (`committed` is left
unchanged).  This callback is registered on the never-resolved
`self._future` of `delete()`, so it is never actually invoked. -/
def LRecord.deleteCallback (t : Table) (r : LRecord) : LRecord :=
  { r with fields := unsetAll t.cols r.fields, future := false }

/-- `AppException` of `extends.py`: a description and the fatal flag. -/
structure AppException where
  desc : String
  fatal : Bool
deriving DecidableEq, Repr

/-- `AppError` of `extends.py`: a non-fatal application exception. -/
def AppError (desc : String) : AppException :=
  ⟨desc, false⟩

/-- `AppFatalError` of `extends.py`: a fatal application exception. -/
def AppFatalError (desc : String) : AppException :=
  ⟨desc, true⟩

/-- The per-page configuration values read from `Config` by the
`getList` methods (the `config.yaml` they come from is not part of the
repository, so they stay abstract). -/
structure Config where
  projectsPerPage : Int
  organisationsPerPage : Int
deriving DecidableEq, Repr

/-- The shape of a SELECT built by a `getList` method: target table,
LIMIT, OFFSET, and the (absent) ORDER BY clause. -/
structure SelectQuery where
  table : String
  limit : Int
  offset : Int
  orderBy : Option (List String)
deriving DecidableEq, Repr

/-- The SELECT issued by `Project.getList` (`model/project.py` lines
81-84): LIMIT `projectsPerPage`, OFFSET `(page-1)*projectsPerPage`, no
ORDER BY. -/
def Project.getListQuery (cfg : Config) (page : Int) : SelectQuery :=
  { table := "projects",
    limit := cfg.projectsPerPage,
    offset := (page - 1) * cfg.projectsPerPage,
    orderBy := none }

/-- The SELECT issued by `Organisation.getList` (`model/organisation.py`
lines 37-40).  Note the source uses `Config.projectsPerPage` for the
LIMIT but `Config.organisationsPerPage` for the OFFSET multiplier. -/
def Organisation.getListQuery (cfg : Config) (page : Int) : SelectQuery :=
  { table := "organisations",
    limit := cfg.projectsPerPage,
    offset := (page - 1) * cfg.organisationsPerPage,
    orderBy := none }

/-- The control flow of `Project.getList` (`model/project.py` lines
78-92), parameterised by `res`, the wrapped result list of the SELECT:
`page < 1` is fatal, an empty result set is fatal past page 1 and a
plain error on page 1, a non-empty result set is returned. -/
def Project.getList (page : Int) (res : List Record) :
    Except AppException (List Record) :=
  if page < 1 then .error (AppFatalError s!"Invalid page: {page}")
  else if res = [] then
    if page > 1 then .error (AppFatalError s!"Page {page} does not exist")
    else .error (AppError "There are no matching projects")
  else .ok res

/-- The control flow of `Organisation.getList` (`model/organisation.py`
lines 34-48), parameterised like `Project.getList`. -/
def Organisation.getList (page : Int) (res : List Record) :
    Except AppException (List Record) :=
  if page < 1 then .error (AppFatalError s!"Invalid page: {page}")
  else if res = [] then
    if page > 1 then .error (AppFatalError s!"Page {page} does not exist")
    else .error (AppError "There are no matching organisations")
  else .ok res

/-- The environment of the logo hook: the configured size ceiling and
the filesystem oracle (whether a logo file exists for this record's key,
whether the write succeeds, whether the remove succeeds). -/
structure LogoEnv where
  maxLogoSize : Nat
  fileExists : Bool
  writeOk : Bool
  removeOk : Bool
deriving DecidableEq, Repr

/-- An exception escaping the logo hook: a (non-fatal) `AppError`, or
the `AttributeError` Python raises when `mime` is `None`. -/
inductive HookExc where
  | appError (msg : String)
  | attributeError
deriving DecidableEq, Repr

/-- A filesystem effect of the logo hook. -/
inductive FsEffect where
  | fileWritten
  | fileRemoved
  | removeFailed
deriving DecidableEq, Repr

/-- State of a `RecordWithLogo` (`model/logo.py`): the base record plus
the staged logo bytes (modelled as a byte list) and staged MIME type. -/
structure LogoRecord where
  base : Record
  logoData : Option (List Nat)
  logoMime : Option String
deriving DecidableEq, Repr

/-- Python truthiness of `self._logoData`: `None` and empty bytes are
falsy. -/
def truthyBytes : Option (List Nat) → Bool
  | none => false
  | some bs => !bs.isEmpty

/-- Models Python `str.startswith(p)`: `p` is a prefix of `s`.  (Defined
via character lists so that proofs can evaluate it by kernel reduction.) -/
def strStartsWith (s p : String) : Bool :=
  p.data.isPrefixOf s.data

/-- Models Python `str.strip()`: remove leading and trailing whitespace.
(Defined via character lists so that proofs can evaluate it by kernel
reduction.) -/
def pyStrip (s : String) : String :=
  ⟨((s.data.dropWhile Char.isWhitespace).reverse.dropWhile
      Char.isWhitespace).reverse⟩

/-- `RecordWithLogo.saveLogo` (`model/logo.py` lines 14-35; `Project`
carries an identical copy in `model/project.py` lines 39-60): rejects a
non-image MIME type and an oversized payload with an `AppError`, converts
an `IOError` of the write into an `AppError`, otherwise writes the file.
The original messages contain an apostrophe and an interpolated size
limit; the message text is abbreviated here.  A `None` MIME type raises
`AttributeError` at `mime.startswith`. -/
def saveLogo (env : LogoEnv) (logo : List Nat) (mime : Option String) :
    Except HookExc FsEffect :=
  match mime with
  | none => .error .attributeError
  | some m =>
      if !strStartsWith m "image/" then .error (.appError "Logo is not an image")
      else if logo.length > env.maxLogoSize then .error (.appError "Logo too large")
      else if !env.writeOk then .error (.appError "Could not save logo image")
      else .ok .fileWritten

/-- The outcome of running the logo hook: the record state afterwards,
the exception propagating out of it (if any), and the filesystem effects
performed. -/
structure HookResult where
  state : LogoRecord
  raised : Option HookExc
  effects : List FsEffect
deriving DecidableEq, Repr

/-- `RecordWithLogo._saveCallback` (`model/logo.py` lines 53-67;
`Project._saveCallback` in `model/project.py` lines 119-133 is
identical up to the path root): run the base callback, then either write
the staged logo (an exception from `saveLogo` propagates before the
staged state is cleared), or — when the logo flag is falsy and a file
exists — try to remove the file, where a failing remove merely
*constructs* `AppFatalError('Failed to remove logo')` without raising
it; finally clear the staged bytes and MIME type. -/
def logoSaveCallback (t : Table) (env : LogoEnv) (s : LogoRecord) : HookResult :=
  let base1 := saveCallbackBase t s.base
  if pyTruthy (base1.getField "logo") && truthyBytes s.logoData then
    match saveLogo env (s.logoData.getD []) s.logoMime with
    | .error e =>
        { state := { s with base := base1 }, raised := some e, effects := [] }
    | .ok eff =>
        { state := { base := base1, logoData := none, logoMime := none },
          raised := none, effects := [eff] }
  else if !pyTruthy (base1.getField "logo") && env.fileExists then
    { state := { base := base1, logoData := none, logoMime := none },
      raised := none,
      effects := [if env.removeOk then .fileRemoved else .removeFailed] }
  else
    { state := { base := base1, logoData := none, logoMime := none },
      raised := none, effects := [] }

/-- `clean`'s per-value transformation (`database/__init__.py` lines
46-51): an empty string becomes Python `None`, any other string is
stripped, every other value passes through. -/
def cleanValue : Value → Value
  | .str s => if s = "" then .unset else .str (pyStrip s)
  | v => v

/-- `clean` of `database/__init__.py` (lines 33-51): drop keys that are
not columns of the table or that name a primary-key column, and apply
`cleanValue` to the kept values. -/
def clean (data : List (String × Value)) (t : Table) : List (String × Value) :=
  data.filterMap (fun kv =>
    match t.cols.find? (fun c => c.name == kv.1) with
    | some c => if c.primaryKey then none else some (kv.1, cleanValue kv.2)
    | none => none)

/-- The INSERT built by `insert` of `database/__init__.py` (lines
83-101): the data is passed through `clean` before the statement is
constructed. -/
def Database.insert (t : Table) (data : List (String × Value)) : DbOp :=
  DbOp.insert (clean data t)

/-- A row of the `projects` table as fetched by `_find`. -/
def rowC2 : List (String × Value) :=
  [("projID", .int 7), ("orgID", .int 2), ("name", .str "Proj"),
   ("desc", .str "A description"), ("homepage", .str "hp"),
   ("logo", .bool true)]

/-- The record `Record.__init__` builds from `rowC2` with
`committed = True` (the wrapping `_find` performs): fully populated and
unmodified since construction. -/
def recC2 : Record :=
  { committed := true,
    fields :=
      [("projID", .int 7), ("orgID", .int 2), ("name", .str "Proj"),
       ("desc", .str "A description"), ("homepage", .str "hp"),
       ("logo", .bool true)] }

/-- A committed legacy record used to exercise `LRecord.delete`. -/
def lrecW : LRecord :=
  { committed := true, dirty := false, dirtyFields := [], future := false,
    fields := [("projID", .int 2), ("name", .str "P")] }

/-- A saved organisation whose `logo` flag is `False` and whose staged
logo state is empty. -/
def sNoLogo : LogoRecord :=
  { base :=
      { committed := true,
        fields :=
          [("orgID", .int 3), ("name", .str "Org"),
           ("desc", .str "A description"), ("logo", .bool false)] },
    logoData := none, logoMime := none }

/-- Logo-hook environment in which a logo file exists on disk and
`os.remove` fails with `OSError`. -/
def envRemoveFail : LogoEnv :=
  { maxLogoSize := 512000, fileExists := true, writeOk := true, removeOk := false }

/-- Logo-hook environment in which a logo file exists on disk and
`os.remove` succeeds. -/
def envRemoveOk : LogoEnv :=
  { maxLogoSize := 512000, fileExists := true, writeOk := true, removeOk := true }

/-- A saved organisation with staged logo bytes whose MIME type is
`text/plain`. -/
def sBadMime : LogoRecord :=
  { base :=
      { committed := true,
        fields :=
          [("orgID", .int 3), ("name", .str "Org"),
           ("desc", .str "A description"), ("logo", .bool true)] },
    logoData := some [1, 2, 3], logoMime := some "text/plain" }

/-- A saved organisation with `logo = False`, no staged state, and no
logo file on disk: the hook takes its final no-op branch. -/
def sW9 : LogoRecord :=
  { base := sNoLogo.base, logoData := none, logoMime := none }

/-- Environment with no logo file on disk. -/
def envNoFile : LogoEnv :=
  { maxLogoSize := 100, fileExists := false, writeOk := true, removeOk := true }

/-- The record produced by constructing from `{name: "A"}` uncommitted. -/
def rW3 : Record :=
  { committed := false, fields := [("name", .str "A")] }

/-- A data dictionary exercising every branch of `clean`: a primary-key
entry, a padded string, a key that is no column, and an empty string. -/
def dataW : List (String × Value) :=
  [("projID", .int 9), ("name", .str " A "), ("bogus", .int 1),
   ("homepage", .str "")]

/-- An arbitrary fetched record, used as a non-empty `getList` result. -/
def rEmpty : Record :=
  { committed := true, fields := [] }

/-- Updating field `c` makes `c` map to the new value. -/
theorem lookup_setAssoc_self (c : String) (v : Value) (fs : List (String × Value)) :
    List.lookup c (setAssoc c v fs) = some v := by
  induction fs with
  | nil => simp [setAssoc, List.lookup]
  | cons kv rest ih =>
      obtain ⟨k, w⟩ := kv
      by_cases h : k = c
      · subst h
        simp [setAssoc, List.lookup]
      · have hbeq : (c == k) = false := beq_eq_false_iff_ne.mpr (Ne.symm h)
        simp [setAssoc, h, List.lookup, hbeq, ih]

/-- Updating field `c` leaves every other field unchanged. -/
theorem lookup_setAssoc_ne (c c' : String) (v : Value) (h : c' ≠ c)
    (fs : List (String × Value)) :
    List.lookup c' (setAssoc c v fs) = List.lookup c' fs := by
  have hbeq : (c' == c) = false := beq_eq_false_iff_ne.mpr h
  induction fs with
  | nil => simp [setAssoc, List.lookup, hbeq]
  | cons kv rest ih =>
      obtain ⟨k, w⟩ := kv
      by_cases hk : k = c
      · subst hk
        simp [setAssoc, List.lookup, hbeq]
      · simp [setAssoc, hk, List.lookup, ih]

/-- `lookupField` after an update of the same field. -/
theorem lookupField_setAssoc_self (c : String) (v : Value) (fs : List (String × Value)) :
    lookupField (setAssoc c v fs) c = v := by
  simp [lookupField, lookup_setAssoc_self]

/-- `lookupField` after an update of a different field. -/
theorem lookupField_setAssoc_ne (c c' : String) (v : Value) (h : c' ≠ c)
    (fs : List (String × Value)) :
    lookupField (setAssoc c v fs) c' = lookupField fs c' := by
  simp [lookupField, lookup_setAssoc_ne c c' v h]

/-- Reading a field just written. -/
theorem getField_setField_self (r : Record) (c : String) (v : Value) :
    (r.setField c v).getField c = v := by
  simp [Record.getField, Record.setField, lookupField_setAssoc_self]

/-- Reading a field other than the one written. -/
theorem getField_setField_ne (r : Record) (c c' : String) (v : Value) (h : c' ≠ c) :
    (r.setField c v).getField c' = r.getField c' := by
  simp [Record.getField, Record.setField, lookupField_setAssoc_ne c c' v h]

/-- `setField` does not touch the committed flag. -/
theorem committed_setField (r : Record) (c : String) (v : Value) :
    (r.setField c v).committed = r.committed := rfl

/-- The NULL-fill loop of `_saveCallback` viewed field by field: a column
that was unset becomes NULL, everything else is unchanged. -/
theorem getField_nullFill (cols : List Col) (r : Record) (c : String) :
    (nullFill cols r).getField c =
      if c ∈ cols.map Col.name ∧ r.getField c = .unset then .null
      else r.getField c := by
  induction cols generalizing r with
  | nil => simp [nullFill]
  | cons col cs ih =>
      simp only [nullFill]
      by_cases hc : col.name = c
      · subst hc
        by_cases hu : r.getField col.name = .unset
        · rw [if_pos hu, ih, getField_setField_self]
          simp [hu, List.map_cons, List.mem_cons]
        · rw [if_neg hu, ih]
          simp [hu]
      · have hc' : c ≠ col.name := Ne.symm hc
        by_cases hu : r.getField col.name = .unset
        · rw [if_pos hu, ih, getField_setField_ne r col.name c .null hc']
          simp [List.map_cons, List.mem_cons, hc']
        · rw [if_neg hu, ih]
          simp [List.map_cons, List.mem_cons, hc']

/-- The NULL-fill loop does not touch the committed flag. -/
theorem committed_nullFill (cols : List Col) (r : Record) :
    (nullFill cols r).committed = r.committed := by
  induction cols generalizing r with
  | nil => rfl
  | cons col cs ih =>
      simp only [nullFill]
      split
      · rw [ih, committed_setField]
      · rw [ih]

/-- After `_saveCallback`, the record is committed. -/
theorem saveCallbackBase_committed (t : Table) (r : Record) :
    (saveCallbackBase t r).committed = true := rfl

/-- Field values after `_saveCallback`: unset columns become NULL,
everything else is unchanged. -/
theorem getField_saveCallbackBase (t : Table) (r : Record) (c : String) :
    (saveCallbackBase t r).getField c =
      if c ∈ t.cols.map Col.name ∧ r.getField c = .unset then .null
      else r.getField c := by
  have h : (saveCallbackBase t r).getField c = (nullFill t.cols r).getField c := rfl
  rw [h, getField_nullFill]

/-- The reset loop of the legacy `_deleteCallback`, field by field. -/
theorem lookupField_unsetAll (cols : List Col) (fs : List (String × Value)) (c : String) :
    lookupField (unsetAll cols fs) c =
      if c ∈ cols.map Col.name then .unset else lookupField fs c := by
  induction cols generalizing fs with
  | nil => simp [unsetAll]
  | cons col cs ih =>
      simp only [unsetAll]
      rw [ih]
      by_cases hc : col.name = c
      · subst hc
        by_cases hmem : col.name ∈ cs.map Col.name
        · simp [hmem, List.map_cons, List.mem_cons]
        · simp [hmem, List.map_cons, List.mem_cons, lookupField_setAssoc_self]
      · have hc' : c ≠ col.name := Ne.symm hc
        by_cases hmem : c ∈ cs.map Col.name
        · simp [hmem, List.map_cons, List.mem_cons]
        · simp [hmem, List.map_cons, List.mem_cons, hc',
            lookupField_setAssoc_ne col.name c .unset hc']

/-- Every non-primary-key column contributes its current value to the
`_data` dictionary. -/
theorem mem_recordData (t : Table) (pkey : String) (r : Record) (c : Col)
    (hc : c ∈ t.cols) (hne : c.name ≠ pkey) :
    (c.name, r.getField c.name) ∈ recordData t pkey r := by
  unfold recordData
  apply List.mem_map_of_mem
  refine List.mem_filter.mpr ⟨List.mem_map_of_mem Col.name hc, ?_⟩
  simpa using hne

/-- Every entry of the `_data` dictionary is the current value of a
non-primary-key column. -/
theorem recordData_keys (t : Table) (pkey : String) (r : Record) :
    ∀ kv ∈ recordData t pkey r,
      kv.1 ∈ t.cols.map Col.name ∧ kv.1 ≠ pkey ∧ kv.2 = r.getField kv.1 := by
  intro kv hkv
  unfold recordData at hkv
  obtain ⟨c, hc, hkv⟩ := List.mem_map.mp hkv
  obtain ⟨hmem, hne⟩ := List.mem_filter.mp hc
  subst hkv
  refine ⟨hmem, ?_, rfl⟩
  simpa using hne

/-- A field whose name is not a key of the construction data is left
untouched by the `__init__` column loop. -/
theorem getField_initFields_not_mem (cols : List Col) (d : List (String × Value))
    (c : String) (hd : List.lookup c d = none) :
    ∀ (r r' : Record), initFields cols d r = some r' →
      r'.getField c = r.getField c := by
  induction cols with
  | nil =>
      intro r r' h
      simp [initFields] at h
      subst h; rfl
  | cons col cs ih =>
      intro r r' h
      simp only [initFields] at h
      cases hcol : List.lookup col.name d with
      | none =>
          rw [hcol] at h
          dsimp only at h
          exact ih r r' h
      | some val =>
          have hne : c ≠ col.name := by
            intro hcc
            rw [← hcc] at hcol
            rw [hd] at hcol
            cases hcol
          rw [hcol] at h
          dsimp only at h
          by_cases htr : pyTruthy val = true
          · rw [if_pos htr] at h
            cases hpt : pythonType col.ty val with
            | none =>
                rw [hpt] at h
                simp at h
            | some v =>
                rw [hpt] at h
                dsimp only at h
                rw [ih _ r' h, getField_setField_ne r col.name c v hne]
          · rw [if_neg htr] at h
            rw [ih _ r' h, getField_setField_ne r col.name c val hne]

/-- C1 (amended): the active `Record.save` of `model/record.py` has no
in-flight-operation guard — with a configured primary key it always
issues its store operation and never raises `OperationPendingError`; the
single-in-flight guard exists only in the superseded `model.py` variant,
whose `save` raises `OperationPendingError` and issues no store
operation whenever `_future` is set. -/
theorem save_has_no_pending_guard :
    (∀ (pk : String) (t : Table) (r : Record) (n : Int),
      ∃ s op, Record.save (some pk) t r n = .ok (s, op)) ∧
    (∀ (pk : String) (t : Table) (r : LRecord), r.future = true →
      LRecord.save (some pk) t r = .error .operationPending) := by
  constructor
  · intro pk t r n
    by_cases h : r.committed
    · exact ⟨saveCallbackBase t r,
        .update (r.getField pk) (recordData t pk r),
        by simp [Record.save, h]⟩
    · exact ⟨saveCallbackBase t (r.setField pk (.int n)),
        .insert (recordData t pk r),
        by simp [Record.save, h]⟩
  · intro pk t r h
    simp [LRecord.save, h]

/-- Witness for `save_has_no_pending_guard` at concrete records. -/
theorem save_has_no_pending_guard_witness :
    (∃ s op, Record.save (some "projID") projects ⟨false, []⟩ 1 = .ok (s, op)) ∧
    LRecord.save (some "projID") projects ⟨false, false, [], true, []⟩ =
      .error .operationPending := by
  have h := save_has_no_pending_guard
  exact ⟨h.1 "projID" projects ⟨false, []⟩ 1,
    h.2 "projID" projects ⟨false, false, [], true, []⟩ rfl⟩

/-- C1 (counterexample): the live `save` mutates the record only when
its awaited query resolves, so a second `save` call made while the first
is still outstanding runs on the same record state; evaluating it shows
it issues a second INSERT instead of raising `OperationPendingError`. -/
theorem save_while_pending_inserts_again :
    Record.save (some "projID") projects ⟨false, [("name", Value.str "Proj")]⟩ 7 =
      .ok (⟨true,
        [("name", Value.str "Proj"), ("projID", Value.int 7),
         ("orgID", Value.null), ("desc", Value.null),
         ("homepage", Value.null), ("logo", Value.null)]⟩,
        .insert
          [("orgID", Value.unset), ("name", Value.str "Proj"),
           ("desc", Value.unset), ("homepage", Value.unset),
           ("logo", Value.unset)]) ∧
    (Record.save (some "projID") projects ⟨false, [("name", Value.str "Proj")]⟩ 7).isOk
      = true := by
  exact ⟨rfl, rfl⟩

/-- C2 (amended): `save` on a committed record issues an UPDATE keyed on
the record's primary-key value whose value set is exactly the current
value of every non-primary-key column — no dirty-field filtering occurs
in the active `Record`. -/
theorem committed_save_updates_all_fields
    (t : Table) (pk : String) (r : Record) (n : Int) (h : r.committed = true) :
    Record.save (some pk) t r n =
      .ok (saveCallbackBase t r, .update (r.getField pk) (recordData t pk r)) ∧
    (∀ c ∈ t.cols, c.name ≠ pk →
      (c.name, r.getField c.name) ∈ recordData t pk r) ∧
    (∀ kv ∈ recordData t pk r,
      kv.1 ∈ t.cols.map Col.name ∧ kv.1 ≠ pk ∧ kv.2 = r.getField kv.1) := by
  refine ⟨by simp [Record.save, h], ?_, recordData_keys t pk r⟩
  intro c hc hne
  exact mem_recordData t pk r c hc hne

/-- Witness for `committed_save_updates_all_fields` at a fetched
project record. -/
theorem committed_save_updates_all_fields_witness :
    Record.save (some "projID") projects recC2 0 =
      .ok (saveCallbackBase projects recC2,
        .update (recC2.getField "projID") (recordData projects "projID" recC2)) ∧
    ("name", recC2.getField "name") ∈ recordData projects "projID" recC2 := by
  have h := committed_save_updates_all_fields projects "projID" recC2 0 rfl
  exact ⟨h.1, h.2.1 ⟨"name", .string, false⟩ (by decide) (by decide)⟩

/-- C2 (counterexample): a record freshly constructed from a fetched row
has no field modified since its last commit, so under the claim its
`save` would issue an UPDATE with an empty value set; evaluating the code
shows the UPDATE carries all five non-primary-key columns. -/
theorem clean_record_save_sends_nonempty_update :
    initRecord projects (some rowC2) true = some recC2 ∧
    Record.save (some "projID") projects recC2 0 =
      .ok (recC2, .update (Value.int 7)
        [("orgID", Value.int 2), ("name", Value.str "Proj"),
         ("desc", Value.str "A description"), ("homepage", Value.str "hp"),
         ("logo", Value.bool true)]) ∧
    ([("orgID", Value.int 2), ("name", Value.str "Proj"),
      ("desc", Value.str "A description"), ("homepage", Value.str "hp"),
      ("logo", Value.bool true)] : List (String × Value)) ≠ [] := by
  refine ⟨by decide, rfl, by decide⟩

/-- C3 (amended): the constructor leaves the primary-key field unset
whenever the construction data has no entry for it (but does not enforce
the claimed invariant when the data carries one); and a successful
`save` of an uncommitted record leaves it committed with the primary-key
field set to the store-assigned key. -/
theorem primaryKey_committed_discipline :
    (∀ (t : Table) (data : List (String × Value)) (committed : Bool)
        (pk : String) (r : Record),
      List.lookup pk data = none →
      initRecord t (some data) committed = some r →
      r.getField pk = .unset) ∧
    (∀ (t : Table) (pk : String) (r : Record) (n : Int),
      r.committed = false →
      ∃ r' vals, Record.save (some pk) t r n = .ok (r', .insert vals) ∧
        r'.committed = true ∧ r'.getField pk = .int n ∧
        Value.int n ≠ .unset) := by
  constructor
  · intro t data committed pk r hlk hinit
    unfold initRecord at hinit
    dsimp only at hinit
    by_cases hd : data = []
    · rw [if_pos hd] at hinit
      cases hinit
      rfl
    · rw [if_neg hd] at hinit
      have := getField_initFields_not_mem t.cols data pk hlk _ r hinit
      rw [this]
      rfl
  · intro t pk r n h
    refine ⟨saveCallbackBase t (r.setField pk (.int n)), recordData t pk r,
      by simp [Record.save, h], saveCallbackBase_committed _ _, ?_, by simp⟩
    rw [getField_saveCallbackBase]
    have hpk : (r.setField pk (.int n)).getField pk = .int n :=
      getField_setField_self r pk (.int n)
    simp [hpk]

/-- Witness for `primaryKey_committed_discipline` at concrete inputs. -/
theorem primaryKey_committed_discipline_witness :
    rW3.getField "projID" = Value.unset ∧
    (∃ r' vals,
      Record.save (some "projID") projects ⟨false, []⟩ 4 = .ok (r', .insert vals) ∧
      r'.committed = true ∧ r'.getField "projID" = Value.int 4 ∧
      Value.int 4 ≠ Value.unset) := by
  have h := primaryKey_committed_discipline
  exact ⟨h.1 projects [("name", Value.str "A")] false "projID" rW3 rfl (by decide),
    h.2 projects "projID" ⟨false, []⟩ 4 rfl⟩

/-- C3 (counterexample): `Record.__init__` accepts data containing the
primary-key column while `committed=False`, producing an uncommitted
record whose primary-key field is set — the claimed invariant does not
hold for every construction. -/
theorem uncommitted_record_with_set_primaryKey :
    initRecord projects (some [("projID", Value.int 5)]) false =
      some ⟨false, [("projID", Value.int 5)]⟩ ∧
    (false = true ↔ False) ∧
    Record.getField ⟨false, [("projID", Value.int 5)]⟩ "projID" = Value.int 5 ∧
    Value.int 5 ≠ Value.unset := by
  refine ⟨by decide, by simp, by decide, by decide⟩

/-- C4: saving an uncommitted record issues an INSERT carrying the
current value of every non-primary-key column, assigns the
store-assigned key to the primary-key field, marks the record committed,
and replaces every still-unset column with the NULL marker. -/
theorem uncommitted_save_inserts_and_commits
    (t : Table) (pk : String) (r : Record) (n : Int) (h : r.committed = false) :
    Record.save (some pk) t r n =
      .ok (saveCallbackBase t (r.setField pk (.int n)),
        .insert (recordData t pk r)) ∧
    (saveCallbackBase t (r.setField pk (.int n))).committed = true ∧
    (saveCallbackBase t (r.setField pk (.int n))).getField pk = .int n ∧
    (∀ c ∈ t.cols, c.name ≠ pk →
      (c.name, r.getField c.name) ∈ recordData t pk r) ∧
    (∀ c ∈ t.cols, c.name ≠ pk →
      (saveCallbackBase t (r.setField pk (.int n))).getField c.name =
        if r.getField c.name = .unset then .null else r.getField c.name) := by
  refine ⟨by simp [Record.save, h], saveCallbackBase_committed _ _, ?_, ?_, ?_⟩
  · rw [getField_saveCallbackBase]
    have hpk : (r.setField pk (.int n)).getField pk = .int n :=
      getField_setField_self r pk (.int n)
    simp [hpk]
  · intro c hc hne
    exact mem_recordData t pk r c hc hne
  · intro c hc hne
    rw [getField_saveCallbackBase]
    have hne' : c.name ≠ pk := hne
    rw [getField_setField_ne r pk c.name (.int n) hne']
    have hmem : c.name ∈ t.cols.map Col.name := List.mem_map_of_mem Col.name hc
    by_cases hu : r.getField c.name = .unset
    · simp [hmem, hu]
    · simp [hmem, hu]

/-- Witness for `uncommitted_save_inserts_and_commits` at a fresh
project record. -/
theorem uncommitted_save_inserts_and_commits_witness :
    Record.save (some "projID") projects ⟨false, []⟩ 5 =
      .ok (saveCallbackBase projects
          (Record.setField ⟨false, []⟩ "projID" (Value.int 5)),
        .insert (recordData projects "projID" ⟨false, []⟩)) ∧
    (saveCallbackBase projects
      (Record.setField ⟨false, []⟩ "projID" (Value.int 5))).committed = true ∧
    (saveCallbackBase projects
      (Record.setField ⟨false, []⟩ "projID" (Value.int 5))).getField "projID" =
      Value.int 5 := by
  have h := uncommitted_save_inserts_and_commits projects "projID" ⟨false, []⟩ 5 rfl
  exact ⟨h.1, h.2.1, h.2.2.1⟩

/-- C5 (code bug): `delete()` of `model.py` (lines 221-236), evaluated
at the failing input.  The `InvalidStateError` guard and the DELETE for
the record's own primary-key value are as claimed, but the fields are
never reset: `_deleteCallback` — the only code that resets them — is
registered on `self._future`, a fresh `asyncio.Future` that nothing in
the repository ever resolves (the DELETE runs in a separate
`ensure_future` task), so after `delete()` the committed record
`lrecW`'s `name` field still holds its value.  The last conjunct
evaluates the never-invoked callback itself, confirming that resetting
the fields was the intent. -/
theorem legacy_delete_never_resets_fields :
    LRecord.delete "projID" ⟨false, false, [], false, []⟩ =
      .error .invalidState ∧
    LRecord.delete "projID" lrecW =
      .ok ({ lrecW with future := true }, .delete (Value.int 2)) ∧
    lookupField ({ lrecW with future := true } : LRecord).fields "name" =
      .str "P" ∧
    Value.str "P" ≠ Value.unset ∧
    lookupField
      (LRecord.deleteCallback projects { lrecW with future := true }).fields
      "name" = .unset := by
  refine ⟨rfl, rfl, rfl, by simp, by decide⟩

/-- C6: for both `Project.getList` and `Organisation.getList`, a page
below 1 raises `AppFatalError`, an empty result set raises
`AppFatalError` past page 1 and a non-fatal `AppError` on page 1, and a
non-empty result set is returned; `AppFatalError` carries the fatal flag
and `AppError` does not. -/
theorem getList_pagination_errors (page : Int) (res : List Record) :
    (page < 1 →
      Project.getList page res = .error (AppFatalError s!"Invalid page: {page}") ∧
      Organisation.getList page res =
        .error (AppFatalError s!"Invalid page: {page}")) ∧
    (1 < page → res = [] →
      Project.getList page res =
        .error (AppFatalError s!"Page {page} does not exist") ∧
      Organisation.getList page res =
        .error (AppFatalError s!"Page {page} does not exist")) ∧
    (page = 1 → res = [] →
      Project.getList page res = .error (AppError "There are no matching projects") ∧
      Organisation.getList page res =
        .error (AppError "There are no matching organisations")) ∧
    (1 ≤ page → res ≠ [] →
      Project.getList page res = .ok res ∧
      Organisation.getList page res = .ok res) ∧
    (∀ s, (AppFatalError s).fatal = true) ∧
    (∀ s, (AppError s).fatal = false) := by
  refine ⟨?_, ?_, ?_, ?_, fun s => rfl, fun s => rfl⟩
  · intro h
    constructor <;> simp [Project.getList, Organisation.getList, h]
  · intro h hres
    have hn : ¬ page < 1 := by omega
    constructor <;> simp [Project.getList, Organisation.getList, hres, hn, h]
  · intro h hres
    subst h
    constructor <;> simp [Project.getList, Organisation.getList, hres]
  · intro h hres
    have hn : ¬ page < 1 := by omega
    constructor <;> simp [Project.getList, Organisation.getList, hres, hn]

/-- Witness for `getList_pagination_errors`: all four outcomes at
concrete pages and result sets. -/
theorem getList_pagination_errors_witness :
    Project.getList 0 [] = .error (AppFatalError "Invalid page: 0") ∧
    Organisation.getList 2 [] = .error (AppFatalError "Page 2 does not exist") ∧
    Project.getList 1 [] = .error (AppError "There are no matching projects") ∧
    Organisation.getList 1 [rEmpty] = .ok [rEmpty] := by
  have h0 := getList_pagination_errors 0 []
  have h2 := getList_pagination_errors 2 []
  have h1 := getList_pagination_errors 1 []
  have h1r := getList_pagination_errors 1 [rEmpty]
  exact ⟨(h0.1 (by norm_num)).1, (h2.2.1 (by norm_num) rfl).2,
    (h1.2.2.1 rfl rfl).1, (h1r.2.2.2.1 (by norm_num) (by simp)).2⟩

/-- C7 (code bug): `Project.getList` pages with LIMIT `projectsPerPage`
and OFFSET `(page-1)*projectsPerPage` as claimed, but
`Organisation.getList` takes its LIMIT from `Config.projectsPerPage`
while multiplying its OFFSET by `Config.organisationsPerPage`: with
`projectsPerPage = 10` and `organisationsPerPage = 7`, page 2 of the
organisations list is `LIMIT 10 OFFSET 7`, so its LIMIT is not the
entity's own page size and its OFFSET is not `(page-1)` times its
LIMIT.  Neither query has an ORDER BY. -/
theorem organisation_getList_mixes_page_sizes :
    Project.getListQuery ⟨10, 7⟩ 2 =
      { table := "projects", limit := 10, offset := 10, orderBy := none } ∧
    Organisation.getListQuery ⟨10, 7⟩ 2 =
      { table := "organisations", limit := 10, offset := 7, orderBy := none } ∧
    (Organisation.getListQuery ⟨10, 7⟩ 2).limit ≠
      (⟨10, 7⟩ : Config).organisationsPerPage ∧
    (Organisation.getListQuery ⟨10, 7⟩ 2).offset ≠
      (2 - 1) * (Organisation.getListQuery ⟨10, 7⟩ 2).limit ∧
    (Project.getListQuery ⟨10, 7⟩ 2).orderBy = none ∧
    (Organisation.getListQuery ⟨10, 7⟩ 2).orderBy = none := by
  refine ⟨by decide, by decide, by decide, by decide, rfl, rfl⟩

/-- C8 (code bug): when the logo flag is falsy and a logo file exists,
the hook attempts the file deletion, but a failing `os.remove` leaves
the hook returning normally — the constructed `AppFatalError` is never
raised, so the failure passes silently (evaluated at the failing input,
alongside the successful-removal case). -/
theorem logo_remove_failure_not_raised :
    (logoSaveCallback organisations envRemoveFail sNoLogo).raised = none ∧
    (logoSaveCallback organisations envRemoveFail sNoLogo).effects =
      [FsEffect.removeFailed] ∧
    (logoSaveCallback organisations envRemoveOk sNoLogo).raised = none ∧
    (logoSaveCallback organisations envRemoveOk sNoLogo).effects =
      [FsEffect.fileRemoved] := by
  refine ⟨rfl, rfl, rfl, rfl⟩

/-- C9 (amended): the staged logo bytes and MIME type are cleared when
the post-save hook finishes without raising; when the hook raises (an
`AppError` from the logo write, or the `AttributeError` of a missing
MIME type), the staged state is left in place. -/
theorem staged_logo_cleared_iff_no_raise (t : Table) (env : LogoEnv) (s : LogoRecord) :
    ((logoSaveCallback t env s).raised = none →
      (logoSaveCallback t env s).state.logoData = none ∧
      (logoSaveCallback t env s).state.logoMime = none) ∧
    (∀ e, (logoSaveCallback t env s).raised = some e →
      (logoSaveCallback t env s).state.logoData = s.logoData ∧
      (logoSaveCallback t env s).state.logoMime = s.logoMime) := by
  unfold logoSaveCallback
  dsimp only
  split
  · split
    · constructor
      · intro h
        simp at h
      · intro e he
        exact ⟨rfl, rfl⟩
    · constructor
      · intro h
        exact ⟨rfl, rfl⟩
      · intro e he
        simp at he
  · split
    · constructor
      · intro h
        exact ⟨rfl, rfl⟩
      · intro e he
        simp at he
    · constructor
      · intro h
        exact ⟨rfl, rfl⟩
      · intro e he
        simp at he

/-- Witness for `staged_logo_cleared_iff_no_raise`: the cleared case at
a no-op hook run and the preserved case at a rejected MIME type. -/
theorem staged_logo_cleared_iff_no_raise_witness :
    ((logoSaveCallback organisations envNoFile sW9).state.logoData = none ∧
      (logoSaveCallback organisations envNoFile sW9).state.logoMime = none) ∧
    ((logoSaveCallback organisations envNoFile sBadMime).state.logoData =
        sBadMime.logoData ∧
      (logoSaveCallback organisations envNoFile sBadMime).state.logoMime =
        sBadMime.logoMime) := by
  have h1 := staged_logo_cleared_iff_no_raise organisations envNoFile sW9
  have h2 := staged_logo_cleared_iff_no_raise organisations envNoFile sBadMime
  exact ⟨h1.1 rfl, h2.2 (HookExc.appError "Logo is not an image") rfl⟩

/-- C9 (counterexample): a record with staged bytes and MIME type
`text/plain` makes the logo write fail with an `AppError`; the hook
propagates it before reaching the clearing assignments, so the staged
bytes and MIME type are still present afterwards. -/
theorem staged_logo_kept_on_apperror :
    (logoSaveCallback organisations envRemoveOk sBadMime).raised =
      some (HookExc.appError "Logo is not an image") ∧
    (logoSaveCallback organisations envRemoveOk sBadMime).state.logoData =
      some [1, 2, 3] ∧
    (logoSaveCallback organisations envRemoveOk sBadMime).state.logoMime =
      some "text/plain" ∧
    some [1, 2, 3] ≠ (none : Option (List Nat)) := by
  refine ⟨rfl, rfl, rfl, by simp⟩

/-- A successful `find?` returns a member satisfying the predicate. -/
theorem find?_mem_and_sat {p : Col → Bool} :
    ∀ (l : List Col) (c : Col), l.find? p = some c → c ∈ l ∧ p c = true := by
  intro l
  induction l with
  | nil =>
      intro c h
      simp [List.find?] at h
  | cons a as ih =>
      intro c h
      by_cases hpa : p a = true
      · rw [List.find?] at h
        rw [hpa] at h
        cases h
        exact ⟨List.mem_cons_self a as, hpa⟩
      · rw [List.find?] at h
        rw [Bool.eq_false_iff.mpr hpa] at h
        dsimp only at h
        obtain ⟨hmem, hsat⟩ := ih c h
        exact ⟨List.mem_cons_of_mem a hmem, hsat⟩

/-- C10: the table-level insert helper builds its INSERT from the
cleaned data: every kept entry corresponds to a non-primary-key column
of the table and is the cleaned form of an input entry, where cleaning
maps the empty string to `None`, strips any other string, and passes
every non-string value through unchanged. -/
theorem insert_cleans_data (t : Table) (data : List (String × Value)) :
    Database.insert t data = DbOp.insert (clean data t) ∧
    (∀ kv ∈ clean data t,
      ∃ c, c ∈ t.cols ∧ c.name = kv.1 ∧ c.primaryKey = false) ∧
    (∀ kv ∈ clean data t, ∃ v0, (kv.1, v0) ∈ data ∧ kv.2 = cleanValue v0) ∧
    cleanValue (.str "") = .unset ∧
    (∀ s : String, s ≠ "" → cleanValue (.str s) = .str (pyStrip s)) ∧
    (∀ v : Value, (∀ s, v ≠ .str s) → cleanValue v = v) := by
  refine ⟨rfl, ?_, ?_, rfl, ?_, ?_⟩
  · intro kv hkv
    obtain ⟨a, ha, hfa⟩ := List.mem_filterMap.mp hkv
    cases hfind : t.cols.find? (fun c => c.name == a.1) with
    | none => rw [hfind] at hfa; cases hfa
    | some c =>
        rw [hfind] at hfa
        dsimp only at hfa
        by_cases hpk : c.primaryKey = true
        · rw [if_pos hpk] at hfa; cases hfa
        · rw [if_neg hpk] at hfa
          obtain ⟨hc, hname⟩ := find?_mem_and_sat t.cols c hfind
          refine ⟨c, hc, ?_, by simpa using hpk⟩
          have : kv.1 = a.1 := by
            cases hfa; rfl
          rw [this]
          exact beq_iff_eq.mp hname
  · intro kv hkv
    obtain ⟨a, ha, hfa⟩ := List.mem_filterMap.mp hkv
    cases hfind : t.cols.find? (fun c => c.name == a.1) with
    | none => rw [hfind] at hfa; cases hfa
    | some c =>
        rw [hfind] at hfa
        dsimp only at hfa
        by_cases hpk : c.primaryKey = true
        · rw [if_pos hpk] at hfa; cases hfa
        · rw [if_neg hpk] at hfa
          cases hfa
          exact ⟨a.2, ha, rfl⟩
  · intro s hs
    simp [cleanValue, hs]
  · intro v hv
    cases v with
    | str s => exact absurd rfl (hv s)
    | unset => rfl
    | null => rfl
    | int n => rfl
    | bool b => rfl

/-- Witness for `insert_cleans_data` at the `projects` table and a data
dictionary covering every cleaning branch. -/
theorem insert_cleans_data_witness :
    Database.insert projects dataW = DbOp.insert (clean dataW projects) ∧
    (∃ c, c ∈ projects.cols ∧ c.name = "name" ∧ c.primaryKey = false) ∧
    cleanValue (Value.str "") = Value.unset ∧
    clean dataW projects =
      [("name", Value.str "A"), ("homepage", Value.unset)] := by
  have h := insert_cleans_data projects dataW
  exact ⟨h.1, h.2.1 ("name", Value.str "A") (by decide), h.2.2.2.1, by decide⟩
